import Mathlib

/-!
Verification development for the Pelican director / origin-UI control plane.

The definitions below are a shallow embedding of the Go sources:
* the director web API handlers (`handleDisableServerToggle`, `queryOrigins`,
  `listServers`, `ToInternalServerType`) from the director package, and
* the origin heartbeat endpoint (`directorTestResponse`,
  `resetDirectorTimeoutTimer`) from `origin_ui/origin_api.go`.

Collaborators that are outside the provided sources (`isServerDisabled`,
`listAdvertisement`, `metrics.SetComponentHealthStatus`, the `ObjectStat.Query`
scatter/gather) are either taken as oracle parameters (quantified-over
functions) or modelled from the specification; every such definition carries a
doc comment saying so.
-/

set_option autoImplicit false

namespace Pelican

namespace Director

/-- The runtime override reasons stored in the `disabledServers` map
(the Go source spells the permanent reason `permDisabeld`). -/
inductive disabledReason where
  | tempDisabled
  | permDisabeld
  | tempEnabled
deriving DecidableEq

open disabledReason

/-- The `disabledServers` map: server URL to override reason.  Embedded as an
association list; Go map writes overwrite the first binding and deletes remove
the key. -/
def DisabledServers : Type := List (String × disabledReason)

instance : DecidableEq DisabledServers := by
  unfold DisabledServers
  infer_instance

/-- Go map read `disabledServers[serverUrl]`. -/
def lookupServer : DisabledServers → String → Option disabledReason
  | [], _ => none
  | (k, v) :: rest, s => if k = s then some v else lookupServer rest s

/-- Go map write `disabledServers[serverUrl] = r`. -/
def setServer : DisabledServers → String → disabledReason → DisabledServers
  | [], s, v => [(s, v)]
  | (k, w) :: rest, s, v =>
    if k = s then (s, v) :: rest else (k, w) :: setServer rest s v

/-- Go map delete `delete(disabledServers, serverUrl)`. -/
def deleteServer (m : DisabledServers) (s : String) : DisabledServers :=
  m.filter (fun p => p.1 ≠ s)

/-- Modelled from the spec: `isServerDisabled` lives in the director package but
is not among the provided sources.  Per the EffectiveAvailability definition
(§3): an override entry `tempEnabled` reports `disabled = false` with reason
`tempEnabled`; every other override entry reports `disabled = true` with its
reason; a missing entry reports `disabled = false` with no reason.  Static
filtering is represented by `permDisabeld` entries loaded into the map at
startup, as the §4.1 table's "permDisabled (static)" row assumes. -/
def isServerDisabled (m : DisabledServers) (s : String) :
    Bool × Option disabledReason :=
  match lookupServer m s with
  | none => (false, none)
  | some tempEnabled => (false, some tempEnabled)
  | some r => (true, some r)

/-- The handler's possible replies; each conflict constructor records the
reason string interpolated into the corresponding Go message. -/
inductive toggleResult where
  /-- 200, `success` -/
  | ok
  /-- 400, `serverUrl` missing -/
  | badRequestMissingUrl
  /-- 400, cannot enable a server that is not disabled or does not exist -/
  | badRequestNotDisabled
  /-- 400, cannot disable a server that already has been disabled (with the
  current reason) -/
  | badRequestAlreadyDisabled (reason : Option disabledReason)
  /-- 400, cannot enable a server that already has been enabled (with the
  current reason) -/
  | badRequestAlreadyEnabled (reason : Option disabledReason)
deriving DecidableEq

/-- Embedding of `handleDisableServerToggle` (director web API).  The JSON body
is taken already bound to its single `disabled` field; every early `return` of
the Go handler leaves the map untouched, which the embedding renders by
returning the input map unchanged. -/
def handleDisableServerToggle (m : DisabledServers) (serverUrl : String)
    (reqDisabled : Bool) : toggleResult × DisabledServers :=
  if serverUrl = "" then (toggleResult.badRequestMissingUrl, m)
  else if !reqDisabled && (lookupServer m serverUrl).isNone then
    (toggleResult.badRequestNotDisabled, m)
  else
    let ir := isServerDisabled m serverUrl
    if ir.1 && reqDisabled then
      (toggleResult.badRequestAlreadyDisabled ir.2, m)
    else if !ir.1 && !reqDisabled then
      (toggleResult.badRequestAlreadyEnabled ir.2, m)
    else if reqDisabled then
      if ir.2 = some tempEnabled then
        (toggleResult.ok, setServer m serverUrl permDisabeld)
      else
        (toggleResult.ok, setServer m serverUrl tempDisabled)
    else
      if ir.2 = some tempDisabled then
        (toggleResult.ok, deleteServer m serverUrl)
      else if ir.2 = some permDisabeld then
        (toggleResult.ok, setServer m serverUrl tempEnabled)
      else
        (toggleResult.ok, m)

theorem lookupServer_setServer (m : DisabledServers) (s : String)
    (v : disabledReason) : lookupServer (setServer m s v) s = some v := by
  induction m with
  | nil => simp [setServer, lookupServer]
  | cons p rest ih =>
    obtain ⟨k, w⟩ := p
    by_cases h : k = s <;> simp [setServer, lookupServer, h, ih]

theorem lookupServer_deleteServer (m : DisabledServers) (s : String) :
    lookupServer (deleteServer m s) s = none := by
  induction m with
  | nil => simp [deleteServer, lookupServer]
  | cons p rest ih =>
    obtain ⟨k, w⟩ := p
    by_cases h : k = s <;>
      simp [deleteServer, lookupServer, h] <;>
      simpa [deleteServer] using ih

/-- C1: the Toggle operation realises exactly the §4.1 transition table: with no
override entry, disable yields a `tempDisabled` entry and enable is a conflict;
from `tempDisabled`, disable is a conflict and enable removes the entry; from
`permDisabeld` (static), disable is a conflict and enable yields `tempEnabled`;
from `tempEnabled`, disable records an explicit `permDisabeld` entry and enable
is a conflict. -/
theorem handleDisableServerToggle_transition_table (m : DisabledServers)
    (s : String) (hs : s ≠ "") :
    (lookupServer m s = none →
      handleDisableServerToggle m s true =
        (toggleResult.ok, setServer m s disabledReason.tempDisabled) ∧
      handleDisableServerToggle m s false =
        (toggleResult.badRequestNotDisabled, m)) ∧
    (lookupServer m s = some disabledReason.tempDisabled →
      handleDisableServerToggle m s true =
        (toggleResult.badRequestAlreadyDisabled (some disabledReason.tempDisabled), m) ∧
      handleDisableServerToggle m s false =
        (toggleResult.ok, deleteServer m s)) ∧
    (lookupServer m s = some disabledReason.permDisabeld →
      handleDisableServerToggle m s true =
        (toggleResult.badRequestAlreadyDisabled (some disabledReason.permDisabeld), m) ∧
      handleDisableServerToggle m s false =
        (toggleResult.ok, setServer m s disabledReason.tempEnabled)) ∧
    (lookupServer m s = some disabledReason.tempEnabled →
      handleDisableServerToggle m s true =
        (toggleResult.ok, setServer m s disabledReason.permDisabeld) ∧
      handleDisableServerToggle m s false =
        (toggleResult.badRequestAlreadyEnabled (some disabledReason.tempEnabled), m)) := by
  refine ⟨fun h => ?_, fun h => ?_, fun h => ?_, fun h => ?_⟩ <;>
    simp [handleDisableServerToggle, isServerDisabled, h, hs]

/-- Witness for C1 at concrete inputs: the empty registry and server `a`. -/
theorem handleDisableServerToggle_transition_table_witness :
    handleDisableServerToggle ([] : DisabledServers) "a" true =
      (toggleResult.ok, setServer ([] : DisabledServers) "a" disabledReason.tempDisabled) ∧
    handleDisableServerToggle ([] : DisabledServers) "a" false =
      (toggleResult.badRequestNotDisabled, ([] : DisabledServers)) :=
  (handleDisableServerToggle_transition_table ([] : DisabledServers) "a"
    (by decide)).1 rfl

/-- C2: every conflict reply of the Toggle operation leaves the override map
exactly as it was, and the reason it carries is the server's current effective
reason (`none` in the cannot-enable-a-non-disabled-server case). -/
theorem handleDisableServerToggle_conflict_preserves_state
    (m : DisabledServers) (s : String) (d : Bool) :
    ((handleDisableServerToggle m s d).1 = toggleResult.badRequestNotDisabled →
      (handleDisableServerToggle m s d).2 = m ∧
      (isServerDisabled m s).2 = none) ∧
    (∀ ro, (handleDisableServerToggle m s d).1 =
        toggleResult.badRequestAlreadyDisabled ro →
      (handleDisableServerToggle m s d).2 = m ∧
      ro = (isServerDisabled m s).2) ∧
    (∀ ro, (handleDisableServerToggle m s d).1 =
        toggleResult.badRequestAlreadyEnabled ro →
      (handleDisableServerToggle m s d).2 = m ∧
      ro = (isServerDisabled m s).2) := by
  by_cases hs : s = "" <;>
    rcases hl : lookupServer m s with _ | r <;>
    cases d <;>
    first
      | (cases r <;> simp [handleDisableServerToggle, isServerDisabled, hs, hl])
      | simp [handleDisableServerToggle, isServerDisabled, hs, hl]

/-- Witness for C2 at a concrete input: disabling an already `tempDisabled`
server conflicts and leaves the one-entry registry unchanged. -/
theorem handleDisableServerToggle_conflict_preserves_state_witness :
    (handleDisableServerToggle
        [("a", disabledReason.tempDisabled)] "a" true).2 =
      [("a", disabledReason.tempDisabled)] :=
  ((handleDisableServerToggle_conflict_preserves_state
      [("a", disabledReason.tempDisabled)] "a" true).2.1
    (some disabledReason.tempDisabled) rfl).1

/-- C3: from `tempEnabled`, a disable records an explicit `permDisabeld` entry
(the entry is not deleted), and a subsequent enable on the same server yields
`tempEnabled` again, so the cycle is stable. -/
theorem handleDisableServerToggle_tempEnabled_cycle (m : DisabledServers)
    (s : String) (hs : s ≠ "")
    (h : lookupServer m s = some disabledReason.tempEnabled) :
    handleDisableServerToggle m s true =
      (toggleResult.ok, setServer m s disabledReason.permDisabeld) ∧
    lookupServer (setServer m s disabledReason.permDisabeld) s =
      some disabledReason.permDisabeld ∧
    handleDisableServerToggle (setServer m s disabledReason.permDisabeld) s false =
      (toggleResult.ok,
        setServer (setServer m s disabledReason.permDisabeld) s
          disabledReason.tempEnabled) ∧
    lookupServer
        (setServer (setServer m s disabledReason.permDisabeld) s
          disabledReason.tempEnabled) s =
      some disabledReason.tempEnabled := by
  have h2 := lookupServer_setServer m s disabledReason.permDisabeld
  refine ⟨?_, h2, ?_, lookupServer_setServer _ s disabledReason.tempEnabled⟩
  · simp [handleDisableServerToggle, isServerDisabled, h, hs]
  · simp [handleDisableServerToggle, isServerDisabled, h2, hs]

/-- Witness for C3 at a concrete input: a one-entry registry holding server `a`
as `tempEnabled`. -/
theorem handleDisableServerToggle_tempEnabled_cycle_witness :
    handleDisableServerToggle
        [("a", disabledReason.tempEnabled)] "a" true =
      (toggleResult.ok,
        setServer [("a", disabledReason.tempEnabled)] "a"
          disabledReason.permDisabeld) :=
  (handleDisableServerToggle_tempEnabled_cycle
    [("a", disabledReason.tempEnabled)] "a" (by decide) rfl).1

/-! ### Object-availability query handler (`queryOrigins`) -/

/-- Split a character list at `/` separators (the component view Go's
`path.Clean` iterates over); empty components arise from repeated or
leading/trailing slashes. -/
def splitSlash : List Char → List (List Char)
  | [] => [[]]
  | c :: rest =>
    if c = '/' then [] :: splitSlash rest
    else
      match splitSlash rest with
      | [] => [[c]]
      | comp :: comps => (c :: comp) :: comps

/-- One step of Go `path.Clean` component processing: drop empty and `.`
components; `..` pops the last kept component, is dropped at the root of a
rooted path, and is kept when nothing remains to pop in a relative path.  The
`stack` holds the kept components most-recent-first. -/
def cleanStep (rooted : Bool) (stack : List (List Char)) (c : List Char) :
    List (List Char) :=
  if c = [] ∨ c = ['.'] then stack
  else if c = ['.', '.'] then
    match stack with
    | [] => if rooted then [] else [['.', '.']]
    | top :: rest => if top = ['.', '.'] then c :: stack else rest
  else c :: stack

/-- Join components with `/`. -/
def joinSlash : List (List Char) → List Char
  | [] => []
  | [c] => c
  | c :: rest => c ++ '/' :: joinSlash rest

/-- Go standard-library `path.Clean`, embedded by its documented lexical
algorithm: collapse repeated slashes, drop `.` elements, resolve `..`
elements, return `.` for an empty result and keep the leading `/` of a rooted
path. -/
def pathClean (p : String) : String :=
  let cs := p.data
  if cs = [] then "."
  else
    let rooted := cs.head? = some '/'
    let stack := (splitSlash cs).foldl (cleanStep rooted) []
    let body := joinSlash stack.reverse
    if rooted then String.mk ('/' :: body)
    else if body = [] then "."
    else String.mk body

/-- `strings.HasSuffix(path, "/")`. -/
def endsWithSlash (s : String) : Bool := s.data.getLast? = some '/'

/-- The sentinel errors `ObjectStat.Query` is compared against in the handler,
plus a generic case for any other error. -/
inductive QueryError where
  | NoPrefixMatchError
  | ParameterError
  | InsufficientResError
  | otherError (msg : String)
deriving DecidableEq

/-- `err.Error()` for a possibly-nil Go error value: `none` models the nil
pointer dereference (panic) of calling `Error()` on nil.  The sentinel message
texts live outside the provided sources; only the shape matters here. -/
def errorText : Option QueryError → Option String
  | none => none
  | some QueryError.NoPrefixMatchError => some "no prefix matched the path"
  | some QueryError.ParameterError => some "invalid query parameter"
  | some QueryError.InsufficientResError => some "insufficient responses"
  | some (QueryError.otherError m) => some m

/-- One `ctx.JSON` body written by `queryOrigins`: either a
`SimpleApiResp` with status `failed` or a `statResponse` with its `OK` flag,
message and metadata, over an abstract metadata type `α`. -/
inductive responseBody (α : Type) where
  | simpleFailResp (msg : String)
  | statResponse (ok : Bool) (msg : String) (metadata : List α)
deriving DecidableEq

/-- An HTTP response written by the handler: status code and JSON body. -/
def httpResponse (α : Type) : Type := Nat × responseBody α

instance (α : Type) [DecidableEq α] : DecidableEq (httpResponse α) := by
  unfold httpResponse
  infer_instance

/-- Suffix appended to both not-found messages in `queryOrigins`. -/
def noObjectSuffix : String :=
  " If no object is available, please check if the object is in a public namespace."

/-- Embedding of the `queryOrigins` handler.  `query` is the oracle for
`NewObjectStat().Query(path, ...)` (not among the provided sources), returning
the metadata list, the message, and a possibly-nil error; `bindOk` is whether
`ShouldBindQuery` succeeded.  The result is the list of responses the handler
writes, in order (`none` = the handler panics), paired with the path passed to
`Query` when the query stage is reached.  Note two faithful quirks of the Go
source: the soft-failure branch writes its 200 response and then falls through
(missing `return`) to the final success write, and the final not-found branch
builds its message from `err.Error()` although `err` is nil on that path. -/
def queryOrigins {α : Type} (pathParam : String) (bindOk : Bool)
    (query : String → List α × String × Option QueryError) :
    Option (List (httpResponse α)) × Option String :=
  let p := pathClean pathParam
  if p = "" ∨ endsWithSlash p then
    (some [(400, responseBody.simpleFailResp
      "Path should not be empty or ended with slash")], none)
  else if !bindOk then
    (some [(400, responseBody.simpleFailResp "Invalid query parameters")], none)
  else
    let r := query p
    let meta := r.1
    let msg := r.2.1
    let err := r.2.2
    let tail : Option (List (httpResponse α)) :=
      -- lines 299-306: run after the error `switch` when control reaches them
      if meta.length < 1 then
        match errorText err with
        | none => none -- err.Error() with err = nil: panic
        | some t =>
          -- this 404 write also lacks a `return`, so the success write follows
          -- (unreachable in practice: err is nil whenever meta is empty here)
          some [(404, responseBody.simpleFailResp (t ++ noObjectSuffix)),
            (200, responseBody.statResponse true msg meta)]
      else
        some [(200, responseBody.statResponse true msg meta)]
    match err with
    | some QueryError.NoPrefixMatchError =>
      (some [(404, responseBody.simpleFailResp
        ((errorText err).getD ""))], some p)
    | some QueryError.ParameterError =>
      (some [(400, responseBody.simpleFailResp
        ((errorText err).getD ""))], some p)
    | some QueryError.InsufficientResError =>
      if meta.length < 1 then
        (some [(404, responseBody.simpleFailResp (msg ++ noObjectSuffix))], some p)
      else
        -- missing `return`: the OK=false response is written, then control
        -- falls through to lines 299-306 and the OK=true response follows
        (((tail).map
          (fun t => (200, responseBody.statResponse false msg meta) :: t)),
          some p)
    | some (QueryError.otherError m) =>
      (some [(500, responseBody.simpleFailResp m)], some p)
    | none =>
      (tail, some p)

/-- C4 (code defect, evaluated at the failing input): when `Query` yields one
metadata result together with `InsufficientResError`, the handler writes the
OK=false soft-failure 200 response and then — the branch lacks a `return` —
falls through and writes a second 200 response with OK=true, contradicting its
own comment that the OK field of the response is false. -/
theorem queryOrigins_insufficient_double_response :
    queryOrigins "/foo" true
        (fun _ => (([0] : List Nat), "m",
          some QueryError.InsufficientResError)) =
      (some [(200, responseBody.statResponse false "m" [0]),
        (200, responseBody.statResponse true "m" [0])], some "/foo") := by
  decide

/-- C5 (code defect, evaluated at the failing input): with zero successes the
`InsufficientResError` case is indeed reported as a single not-found response,
but the nil-error case panics (calls `Error()` on a nil error while building
the not-found message) instead of reporting not-found. -/
theorem queryOrigins_zero_successes_split :
    queryOrigins "/foo" true
        (fun _ => (([] : List Nat), "m",
          some QueryError.InsufficientResError)) =
      (some [(404, responseBody.simpleFailResp ("m" ++ noObjectSuffix))],
        some "/foo") ∧
    queryOrigins "/foo" true (fun _ => (([] : List Nat), "m", none)) =
      (none, some "/foo") := by
  decide

/-- C9 (code defect): on the branch where `Query` returns a nil error together
with an empty metadata list, the handler dereferences the nil error
(`err.Error()`) while building the not-found message, so it panics instead of
responding — for every message the oracle returns. -/
theorem queryOrigins_nil_error_dereference (msg : String) :
    queryOrigins "/foo" true (fun _ => (([] : List Nat), msg, none)) =
      (none, some "/foo") := rfl

/-- Counterexample to C6 as stated: the request path `/foo/` is
slash-terminated, yet the handler cleans it to `/foo` and the query
(scatter/gather) stage is reached. -/
theorem queryOrigins_slash_path_reaches_query :
    endsWithSlash "/foo/" = true ∧
    (queryOrigins "/foo/" true (fun _ => (([0] : List Nat), "m", none))).2 =
      some "/foo" := by
  decide

/-- C6 as amended: the handler first cleans the request path; it rejects the
request before the query stage exactly when the cleaned path is empty or
slash-terminated, so whenever the query stage is invoked the path it receives
is the cleaned path, non-empty and not slash-terminated. -/
theorem queryOrigins_query_path_validated {α : Type}
    (pathParam : String) (bindOk : Bool)
    (query : String → List α × String × Option QueryError) (p : String)
    (h : (queryOrigins pathParam bindOk query).2 = some p) :
    p = pathClean pathParam ∧ p ≠ "" ∧ endsWithSlash p = false := by
  unfold queryOrigins at h
  by_cases h1 : pathClean pathParam = "" ∨ endsWithSlash (pathClean pathParam) = true
  · simp only [h1, if_pos] at h
    exact absurd h (by simp)
  · rw [if_neg h1] at h
    push_neg at h1
    cases bindOk with
    | false => simp at h
    | true =>
      simp only [Bool.not_true, Bool.false_eq_true, if_false] at h
      rcases hq : query (pathClean pathParam) with ⟨meta, msg, err⟩
      rw [hq] at h
      have hp : p = pathClean pathParam := by
        rcases err with _ | e
        · simpa using h.symm
        · cases e <;> simp at h <;>
            first
              | exact h.symm
              | (split at h <;> simp_all)
      refine ⟨hp, ?_, ?_⟩
      · rw [hp]; exact h1.1
      · rw [hp]; simpa using h1.2

/-- Witness for the amended C6 at a concrete input. -/
theorem queryOrigins_query_path_validated_witness :
    ("/foo" : String) = pathClean "/foo/" ∧ ("/foo" : String) ≠ "" ∧
      endsWithSlash "/foo" = false :=
  queryOrigins_query_path_validated "/foo/" true
    (fun _ => (([0] : List Nat), "m", none)) "/foo" (by decide)

/-! ### Server listing (`listServers`, `ToInternalServerType`) -/

/-- Modelled from the spec: `server_structs.ServerType` is a string-valued
type with the two values `Origin` and `Cache` (§3, `Type∈{Origin,Cache}`); the
`server_structs` package is not among the provided sources. -/
def OriginType : String := "Origin"

/-- Modelled from the spec: the cache server type (§3). -/
def CacheType : String := "Cache"

/-- ASCII case folding for one character (A-Z to a-z). -/
def toLowerAscii (c : Char) : Char :=
  if 65 ≤ c.toNat ∧ c.toNat ≤ 90 then Char.ofNat (c.toNat + 32) else c

/-- `strings.EqualFold`, embedded for ASCII inputs (the Go function performs
Unicode simple case folding, which agrees with ASCII folding on the strings
the handler compares). -/
def equalFold (a b : String) : Bool :=
  a.data.map toLowerAscii = b.data.map toLowerAscii

/-- `listServerRequest.ToInternalServerType`: exact lowercase comparison
against `cache` and `origin`; every other value, including other casings of
those two words, maps to the empty server type. -/
def ToInternalServerType (serverTypeQ : String) : String :=
  if serverTypeQ = "cache" then CacheType
  else if serverTypeQ = "origin" then OriginType
  else ""

/-- One advertisement as far as the listing filter is concerned: its name and
its server type string. -/
structure Advertisement where
  name : String
  serverType : String
deriving DecidableEq

/-- Modelled from the spec: `listAdvertisement` (not among the provided
sources) is the advertisement feed `ListAdvertisements(types)` of §6 — it
returns the advertisements whose type belongs to the requested set. -/
def listAdvertisement (ads : List Advertisement) (types : List String) :
    List Advertisement :=
  ads.filter (fun a => types.contains a.serverType)

/-- The listing handler's reply: a 400 or the selected servers.  The embedding
covers `listServers` through its server-selection logic (validation of
`server_type` and the choice of types passed to `listAdvertisement`); the
subsequent loop assembles exactly one response record per selected server, so
the selected list determines which servers the returned listing contains. -/
inductive listServersResult where
  | badRequest (msg : String)
  | okList (servers : List Advertisement)
deriving DecidableEq

/-- Embedding of `listServers` over the current advertisements `ads`;
`bindOk` is whether `ShouldBindQuery` succeeded and `serverTypeQ` the
`server_type` query value (empty when absent). -/
def listServers (ads : List Advertisement) (bindOk : Bool)
    (serverTypeQ : String) : listServersResult :=
  if !bindOk then listServersResult.badRequest "Invalid query parameters"
  else if serverTypeQ ≠ "" then
    if !(equalFold serverTypeQ OriginType) && !(equalFold serverTypeQ CacheType)
    then listServersResult.badRequest "Invalid server type"
    else listServersResult.okList
      (listAdvertisement ads [ToInternalServerType serverTypeQ])
  else listServersResult.okList (listAdvertisement ads [OriginType, CacheType])

/-- Counterexample to C10 as stated: `Origin` passes the case-insensitive
validation, but the listing it produces is empty although an origin server is
advertised — it is not filtered to the corresponding server type, because
`ToInternalServerType` maps `Origin` to the empty type. -/
theorem listServers_mixed_case_not_filtered :
    equalFold "Origin" OriginType = true ∧
    ToInternalServerType "Origin" = "" ∧
    listServers [⟨"o1", OriginType⟩] true "Origin" =
      listServersResult.okList [] ∧
    listAdvertisement [⟨"o1", OriginType⟩] [OriginType] =
      [⟨"o1", OriginType⟩] := by
  decide

/-- C10 as amended: every accepted `server_type` value is filtered through
`ToInternalServerType`; the exact lowercase values `origin` and `cache` map to
the corresponding server type, so the listing is filtered to that type, while
any other accepted casing maps to the empty type, so the listing is filtered
by the empty type instead. -/
theorem listServers_accepted_filtering (ads : List Advertisement)
    (q : String) (hq : q ≠ "")
    (hacc : equalFold q OriginType = true ∨ equalFold q CacheType = true) :
    listServers ads true q =
      listServersResult.okList
        (listAdvertisement ads [ToInternalServerType q]) ∧
    (q = "origin" → ToInternalServerType q = OriginType) ∧
    (q = "cache" → ToInternalServerType q = CacheType) ∧
    (q ≠ "origin" → q ≠ "cache" → ToInternalServerType q = "") := by
  refine ⟨?_, ?_, ?_, ?_⟩
  · rcases hacc with h | h <;> simp [listServers, hq, h]
  · intro h; simp [ToInternalServerType, h]
  · intro h; simp [ToInternalServerType, h]
  · intro h1 h2; simp [ToInternalServerType, h1, h2]

/-- Witness for the amended C10 at concrete inputs: the lowercase value
`origin` filters the listing to the origin type. -/
theorem listServers_accepted_filtering_witness :
    listServers [⟨"o1", OriginType⟩, ⟨"c1", CacheType⟩] true "origin" =
      listServersResult.okList
        (listAdvertisement [⟨"o1", OriginType⟩, ⟨"c1", CacheType⟩]
          [ToInternalServerType "origin"]) :=
  (listServers_accepted_filtering [⟨"o1", OriginType⟩, ⟨"c1", CacheType⟩]
    "origin" (by decide) (Or.inl (by decide))).1

end Director

namespace OriginUi

/-- The heartbeat report body (`DirectorTest` in `origin_api.go`). -/
structure DirectorTest where
  status : String
  message : String
  timestamp : String
deriving DecidableEq

/-- A component health record as written through
`metrics.SetComponentHealthStatus`. -/
inductive ComponentHealth where
  | unknown
  | okStatus (msg : String)
  | warning (msg : String)
  | critical (msg : String)
deriving DecidableEq

/-- The monitor's state: the (fixed) deadline duration
`directorTimeoutDuration`, the absolute time at which the armed timer will
fire, and the director component's recorded health.  Time is discrete
(`Nat`); arming a timer at time `t` schedules its expiry at `t + deadline`,
which is the observable content of `time.NewTimer` / `Timer.Reset` for these
claims. -/
structure OriginMonitorState where
  deadline : Nat
  nextExpiry : Nat
  health : ComponentHealth
deriving DecidableEq

/-- Modelled from the spec: `metrics.SetComponentHealthStatus` (the metrics
package is not among the provided sources) records the given status and
message for the director component (§3 HealthStatus); modelled as an
infallible state update, so the handler's log-and-500 paths for a failing
metrics write do not arise. -/
def setComponentHealthStatus (s : OriginMonitorState) (st : ComponentHealth) :
    OriginMonitorState :=
  { s with health := st }

/-- Embedding of `resetDirectorTimeoutTimer` as observed by a `Signal` at time
`now` with the timer already created: stop and re-arm the timer for a full
deadline window from now. -/
def resetDirectorTimeoutTimer (now : Nat) (s : OriginMonitorState) :
    OriginMonitorState :=
  { s with nextExpiry := now + s.deadline }

/-- Embedding of the timer-fired branch of the background loop in
`resetDirectorTimeoutTimer` (lines 101-110): mark the director component
Critical with the deadline-exceeded message, then reset the timer for the
next period, scheduling the next expiry one deadline after this one. -/
def directorTimeoutFire (s : OriginMonitorState) : OriginMonitorState :=
  let s1 := setComponentHealthStatus s
    (ComponentHealth.critical
      "No director test report received within the time limit")
  { s1 with nextExpiry := s1.nextExpiry + s1.deadline }

/-- The heartbeat endpoint's reply. -/
inductive originApiResponse where
  /-- gin's default 200 when the handler writes no body -/
  | ok200
  /-- 400 with an error message -/
  | badRequest (msg : String)
deriving DecidableEq

/-- Embedding of `directorTestResponse` at time `now`: `bind` is the result of
`ShouldBind` (`none` = malformed body).  A malformed body is rejected without
touching the timer (the source's comment: let the timer go timeout if the
director did not send a valid request); a bound body re-arms the timer first
and is then classified by its `status` string. -/
def directorTestResponse (bind : Option DirectorTest) (now : Nat)
    (s : OriginMonitorState) : originApiResponse × OriginMonitorState :=
  match bind with
  | none => (originApiResponse.badRequest "Invalid director test response", s)
  | some dt =>
    let s1 := resetDirectorTimeoutTimer now s
    if dt.status = "ok" then
      (originApiResponse.ok200,
        setComponentHealthStatus s1
          (ComponentHealth.okStatus ("Director timestamp: " ++ dt.timestamp)))
    else if dt.status = "error" then
      (originApiResponse.ok200,
        setComponentHealthStatus s1 (ComponentHealth.critical dt.message))
    else
      (originApiResponse.badRequest
        ("Invalid director test response status: " ++ dt.status), s1)

/-- Counterexample to C7 as stated: a malformed (unbindable) report is
rejected with 400 and does **not** re-arm the deadline timer — the state is
returned unchanged, and its next expiry differs from the re-armed value. -/
theorem directorTestResponse_malformed_no_rearm :
    directorTestResponse none 100
        ⟨30, 5, ComponentHealth.unknown⟩ =
      (originApiResponse.badRequest "Invalid director test response",
        ⟨30, 5, ComponentHealth.unknown⟩) ∧
    (⟨30, 5, ComponentHealth.unknown⟩ : OriginMonitorState).nextExpiry ≠
      100 + 30 := by
  decide

/-- C7 as amended: every report that binds successfully re-arms the deadline
timer before its body is classified — so after the call the next expiry is a
full deadline from now, whatever the status value — and an unrecognized
status value additionally returns a validation error to the sender while the
timer stays re-armed. -/
theorem directorTestResponse_bound_rearms (dt : DirectorTest) (now : Nat)
    (s : OriginMonitorState) :
    (directorTestResponse (some dt) now s).2.nextExpiry = now + s.deadline ∧
    (dt.status ≠ "ok" → dt.status ≠ "error" →
      directorTestResponse (some dt) now s =
        (originApiResponse.badRequest
          ("Invalid director test response status: " ++ dt.status),
          resetDirectorTimeoutTimer now s)) := by
  constructor
  · by_cases h1 : dt.status = "ok" <;> by_cases h2 : dt.status = "error" <;>
      simp [directorTestResponse, resetDirectorTimeoutTimer,
        setComponentHealthStatus, h1, h2]
  · intro h1 h2
    simp [directorTestResponse, h1, h2]

/-- Witness for the amended C7 at concrete inputs: a report with the
unrecognized status `bogus`. -/
theorem directorTestResponse_bound_rearms_witness :
    (directorTestResponse (some ⟨"bogus", "m", "t"⟩) 100
        ⟨30, 5, ComponentHealth.unknown⟩).2.nextExpiry = 100 + 30 ∧
    directorTestResponse (some ⟨"bogus", "m", "t"⟩) 100
        ⟨30, 5, ComponentHealth.unknown⟩ =
      (originApiResponse.badRequest
        ("Invalid director test response status: " ++ "bogus"),
        resetDirectorTimeoutTimer 100 ⟨30, 5, ComponentHealth.unknown⟩) :=
  ⟨(directorTestResponse_bound_rearms ⟨"bogus", "m", "t"⟩ 100
      ⟨30, 5, ComponentHealth.unknown⟩).1,
    (directorTestResponse_bound_rearms ⟨"bogus", "m", "t"⟩ 100
      ⟨30, 5, ComponentHealth.unknown⟩).2 (by decide) (by decide)⟩

/-- C8: with the timer armed at time 0 and no report arriving, the `k`-th
expiry of the background loop occurs at time `k * deadline`, marks the
director component Critical with the deadline-exceeded message, and re-arms
the timer for `(k + 1) * deadline` — so a fresh expiry is produced every
deadline interval indefinitely. -/
theorem directorTimeoutFire_self_rearm (d : Nat) (h0 : ComponentHealth)
    (k : Nat) :
    (directorTimeoutFire^[k] ⟨d, d, h0⟩).deadline = d ∧
    (directorTimeoutFire^[k] ⟨d, d, h0⟩).nextExpiry = (k + 1) * d ∧
    (0 < k → (directorTimeoutFire^[k] ⟨d, d, h0⟩).health =
      ComponentHealth.critical
        "No director test report received within the time limit") := by
  induction k with
  | zero => simp
  | succ n ih =>
    rw [Function.iterate_succ_apply']
    refine ⟨?_, ?_, fun _ => ?_⟩
    · simpa [directorTimeoutFire, setComponentHealthStatus] using ih.1
    · simp only [directorTimeoutFire, setComponentHealthStatus]
      rw [ih.2.1, ih.1]
      ring
    · simp [directorTimeoutFire, setComponentHealthStatus]

/-- Witness for C8 at concrete inputs: deadline 30, three missed windows —
expiries at 30, 60 and 90 leave the health Critical with the next expiry
armed for 120. -/
theorem directorTimeoutFire_self_rearm_witness :
    (directorTimeoutFire^[3] ⟨30, 30, ComponentHealth.unknown⟩).nextExpiry =
      (3 + 1) * 30 ∧
    (directorTimeoutFire^[3] ⟨30, 30, ComponentHealth.unknown⟩).health =
      ComponentHealth.critical
        "No director test report received within the time limit" :=
  ⟨(directorTimeoutFire_self_rearm 30 ComponentHealth.unknown 3).2.1,
    (directorTimeoutFire_self_rearm 30 ComponentHealth.unknown 3).2.2
      (by decide)⟩

end OriginUi

end Pelican
